import Mathlib

set_option maxRecDepth 100000

/-!
Verification development for the what-the-FEX sampling pipeline
(legacy/Src/what-the-FEX.cpp and legacy/Src/ThreadStats.hpp).

The shallow embedding models the per-pass sampling state machine:
`SampleStats` (the shared-memory walk merge into the per-thread map) and
`AccumulateJITStats` (delta accumulation, stale-thread eviction, load and
histogram computation).  Machine integers are Nat with explicit wrap at
2^64 where the source uses uint64_t arithmetic; the double-precision load
computation is modelled exactly over the rationals (in this model a
rational division by zero yields zero).
-/

/-- 2^64, the wrap modulus of uint64_t arithmetic. -/
def U64 : Nat := 2 ^ 64

/-- uint64_t addition: wraps modulo 2^64. -/
def add64 (a b : Nat) : Nat := (a + b) % U64

/-- uint64_t subtraction: wraps modulo 2^64 (the C++ source computes
`Stat->name - PreviousStats->name` on uint64_t operands). -/
def sub64 (a b : Nat) : Nat := (a % U64 + (U64 - b % U64)) % U64

/-- FEXCore::Profiler::ThreadStats (ThreadStats.hpp): one shared-memory
record.  `Next` is the byte offset of the next record, `TID` the thread id,
followed by the nine accumulated uint64_t counters. -/
structure ThreadStats where
  Next : Nat
  TID : Nat
  AccumulatedJITTime : Nat
  AccumulatedSignalTime : Nat
  SIGBUSCount : Nat
  SMCCount : Nat
  FloatFallbackCount : Nat
  AccumulatedCacheMissCount : Nat
  AccumulatedCacheReadLockTime : Nat
  AccumulatedCacheWriteLockTime : Nat
  AccumulatedJITCount : Nat
deriving DecidableEq, Repr

/-- The zero-initialised ThreadStats record (`ThreadStats {}` in C++). -/
def ThreadStats.zero : ThreadStats :=
  { Next := 0
    TID := 0
    AccumulatedJITTime := 0
    AccumulatedSignalTime := 0
    SIGBUSCount := 0
    SMCCount := 0
    FloatFallbackCount := 0
    AccumulatedCacheMissCount := 0
    AccumulatedCacheReadLockTime := 0
    AccumulatedCacheWriteLockTime := 0
    AccumulatedJITCount := 0 }

/-- `sizeof(FEXCore::Profiler::ThreadStats)`: 2 uint32_t fields plus 9
uint64_t counters = 80 bytes (a multiple of 16, as the static assert in
ThreadStats.hpp checks). -/
def sizeofThreadStats : Nat := 80

/-- The per-record copy size chosen in `main` (what-the-FEX.cpp lines
942-945): start from the consumer record size; only a nonzero
`ThreadStatsSize` header field participates in the `min`. -/
def threadStatsSizeToCopy (headerSize : Nat) : Nat :=
  if headerSize ≠ 0 then min headerSize sizeofThreadStats else sizeofThreadStats

/-- fex_stats::retained_stats: the per-thread differ entry.  `LastSeen` is a
steady-clock time in nanoseconds. -/
structure RetainedStats where
  LastSeen : Nat
  PreviousStats : ThreadStats
  Stats : ThreadStats
deriving DecidableEq, Repr

/-- fex_stats::fex_histogram_data. -/
structure HistogramData where
  load_percentage : ℚ
  high_jit_load : Bool
  high_invalidation_or_smc : Bool
  high_sigbus : Bool
  high_softfloat : Bool
deriving DecidableEq, Repr

/-- `DEFAULT_HISTO`: the zero-initialised histogram entry. -/
def defaultHisto : HistogramData :=
  { load_percentage := 0
    high_jit_load := false
    high_invalidation_or_smc := false
    high_sigbus := false
    high_softfloat := false }

/-- fex_stats::max_thread_loads entry (the wide-string pip data is display
only and not modelled). -/
structure MaxThreadLoad where
  load_percentage : ℚ
  TotalCycles : Nat
deriving DecidableEq, Repr

/-- JITStatsUserData (what-the-FEX.cpp lines 635-645); the display scale
fields are omitted. -/
structure JITData where
  TotalThisPeriod : ThreadStats
  hottest_threads : List Nat
  sample_period : Nat
  threads_sampled : Nat
  total_jit_time : Nat
  TotalJITInvocations : Nat
  fex_load : ℚ
deriving DecidableEq, Repr

/-- The zero-initialised JITStatsUserData (`JITStatsUserData JITData {}` in
`main`). -/
def initJITData : JITData :=
  { TotalThisPeriod := ThreadStats.zero
    hottest_threads := []
    sample_period := 0
    threads_sampled := 0
    total_jit_time := 0
    TotalJITInvocations := 0
    fex_load := 0 }

/-- The sampling-relevant part of the global `fex_stats` state.  The map
`sampled_stats` is kept as an association list with unique thread-id keys
(mirroring `std::map<uint32_t, retained_stats>`). -/
structure FexState where
  sampled_stats : List (Nat × RetainedStats)
  fex_load_histogram : List HistogramData
  max_thread_loads : List MaxThreadLoad
  FirstLoop : Bool
  previous_sample_period : Nat
  hardware_concurrency : Nat
  cycle_counter_frequency : Nat
deriving DecidableEq, Repr

/-- The freshly constructed state: `fex_stats()` pre-fills the histogram
with 200 default entries, the map and load list start empty, and
`FirstLoop = true`. -/
def initState (hc freq : Nat) : FexState :=
  { sampled_stats := []
    fex_load_histogram := List.replicate 200 defaultHisto
    max_thread_loads := []
    FirstLoop := true
    previous_sample_period := 0
    hardware_concurrency := hc
    cycle_counter_frequency := freq }

/-- The shared-memory walk of `SampleStats` (lines 398-410): starting from
the head offset, follow `Next` offsets, collecting each offset that is
dereferenced.  An offset of 0 ends the list; an offset `≥ shm_size` breaks
the walk.  The walk is fuel-bounded because the source while-loop has no
other termination guarantee. -/
def walkOffsets (shm : Nat → ThreadStats) (size : Nat) : Nat → Nat → List Nat
  | 0, _ => []
  | fuel + 1, off =>
    if off = 0 then []
    else if size ≤ off then []
    else off :: walkOffsets shm size fuel (shm off).Next

/-- The records dereferenced by the walk, in walk order. -/
def headRecords (shm : Nat → ThreadStats) (size fuel headOff : Nat) : List ThreadStats :=
  (walkOffsets shm size fuel headOff).map shm

/-- One `SampleStats` step for one walked record: `sampled_stats[TID]`
default-constructs a fresh entry (zero `PreviousStats`) when the tid is
absent; then the raw record is copied into `Stats` and `LastSeen` is set to
`Now`.  (The std::map is modelled as an association list: an existing key
is updated in place, a fresh key is appended.) -/
def insertSample (m : List (Nat × RetainedStats)) (now : Nat) (s : ThreadStats) :
    List (Nat × RetainedStats) :=
  match m with
  | [] => [(s.TID, { LastSeen := now, PreviousStats := ThreadStats.zero, Stats := s })]
  | e :: rest =>
    if e.1 = s.TID then (e.1, { e.2 with Stats := s, LastSeen := now }) :: rest
    else e :: insertSample rest now s

/-- `SampleStats` (lines 382-411): merge every walked record into the
per-thread map. -/
def SampleStats (m : List (Nat × RetainedStats)) (now : Nat)
    (records : List ThreadStats) : List (Nat × RetainedStats) :=
  records.foldl (fun acc s => insertSample acc now s) m

/-- Look up a thread id in the differ map. -/
def lookupTid : List (Nat × RetainedStats) → Nat → Option RetainedStats
  | [], _ => none
  | e :: rest, t => if e.1 = t then some e.2 else lookupTid rest t

/-- The per-thread counter deltas the accumulate macro computes:
`Stat->name - PreviousStats->name` on uint64_t, i.e. wrapping subtraction.
`Next` and `TID` are not differenced by the source and are left at 0. -/
def deltaOf (r : RetainedStats) : ThreadStats :=
  { Next := 0
    TID := 0
    AccumulatedJITTime := sub64 r.Stats.AccumulatedJITTime r.PreviousStats.AccumulatedJITTime
    AccumulatedSignalTime := sub64 r.Stats.AccumulatedSignalTime r.PreviousStats.AccumulatedSignalTime
    SIGBUSCount := sub64 r.Stats.SIGBUSCount r.PreviousStats.SIGBUSCount
    SMCCount := sub64 r.Stats.SMCCount r.PreviousStats.SMCCount
    FloatFallbackCount := sub64 r.Stats.FloatFallbackCount r.PreviousStats.FloatFallbackCount
    AccumulatedCacheMissCount := sub64 r.Stats.AccumulatedCacheMissCount r.PreviousStats.AccumulatedCacheMissCount
    AccumulatedCacheReadLockTime := sub64 r.Stats.AccumulatedCacheReadLockTime r.PreviousStats.AccumulatedCacheReadLockTime
    AccumulatedCacheWriteLockTime := sub64 r.Stats.AccumulatedCacheWriteLockTime r.PreviousStats.AccumulatedCacheWriteLockTime
    AccumulatedJITCount := sub64 r.Stats.AccumulatedJITCount r.PreviousStats.AccumulatedJITCount }

/-- Accumulate a delta record into the period totals (uint64_t wrapping
additions into `TotalThisPeriod`). -/
def addCounters64 (a d : ThreadStats) : ThreadStats :=
  { a with
    AccumulatedJITTime := add64 a.AccumulatedJITTime d.AccumulatedJITTime
    AccumulatedSignalTime := add64 a.AccumulatedSignalTime d.AccumulatedSignalTime
    SIGBUSCount := add64 a.SIGBUSCount d.SIGBUSCount
    SMCCount := add64 a.SMCCount d.SMCCount
    FloatFallbackCount := add64 a.FloatFallbackCount d.FloatFallbackCount
    AccumulatedCacheMissCount := add64 a.AccumulatedCacheMissCount d.AccumulatedCacheMissCount
    AccumulatedCacheReadLockTime := add64 a.AccumulatedCacheReadLockTime d.AccumulatedCacheReadLockTime
    AccumulatedCacheWriteLockTime := add64 a.AccumulatedCacheWriteLockTime d.AccumulatedCacheWriteLockTime
    AccumulatedJITCount := add64 a.AccumulatedJITCount d.AccumulatedJITCount }

/-- `total_time` of one map entry: the wrapped sum of the JIT-time and
signal-time deltas. -/
def totalTime (r : RetainedStats) : Nat :=
  add64 (deltaOf r).AccumulatedJITTime (deltaOf r).AccumulatedSignalTime

/-- `std::chrono::seconds(10)` in steady-clock nanoseconds: the stale
eviction threshold of line 833. -/
def staleTimeoutNs : Nat := 10000000000

/-- `memcpy(PreviousStats, Stat, ...)`: re-seat the previous counters to the
just-sampled ones. -/
def resyncEntry (r : RetainedStats) : RetainedStats :=
  { r with PreviousStats := r.Stats }

/-- The body of the accumulation loop (lines 809-841) for one map entry:
count the thread, accumulate its wrapped deltas into the totals, re-seat
`PreviousStats`, erase the entry when it was last seen at least 10 s ago,
and otherwise record its `total_time` in `hottest_threads`. -/
def stepEntry (now : Nat) (acc : JITData × List (Nat × RetainedStats))
    (e : Nat × RetainedStats) : JITData × List (Nat × RetainedStats) :=
  let jd := acc.1
  let d := deltaOf e.2
  let tt := add64 d.AccumulatedJITTime d.AccumulatedSignalTime
  let jd2 : JITData := { jd with
    threads_sampled := jd.threads_sampled + 1
    total_jit_time := add64 jd.total_jit_time tt
    TotalThisPeriod := addCounters64 jd.TotalThisPeriod d
    TotalJITInvocations := add64 jd.TotalJITInvocations e.2.Stats.AccumulatedJITCount }
  if staleTimeoutNs ≤ now - e.2.LastSeen then
    (jd2, acc.2)
  else
    ({ jd2 with hottest_threads := jd2.hottest_threads ++ [tt] },
     acc.2 ++ [(e.1, resyncEntry e.2)])

/-- `MaximumCyclesInSamplePeriod`: cycle frequency times the sample period
expressed in seconds, computed exactly over the rationals. -/
def maxCyclesQ (freq periodNs : Nat) : ℚ :=
  (freq : ℚ) * ((periodNs : ℚ) / 1000000000)

/-- `AccumulateJITStats` (lines 793-881): reset the period fields, merge the
walked records into the map, run the accumulation loop, sort the hottest
threads descending, and (on every pass after the first) compute the sample
period, the overall load, the per-thread load list and the next histogram
entry. -/
def AccumulateJITStats (st : FexState) (jd0 : JITData) (records : List ThreadStats)
    (now : Nat) : FexState × JITData :=
  let jdReset : JITData := { jd0 with
    total_jit_time := 0
    threads_sampled := 0
    hottest_threads := []
    TotalJITInvocations := 0
    TotalThisPeriod := ThreadStats.zero }
  let merged := SampleStats st.sampled_stats now records
  let looped := merged.foldl (stepEntry now) (jdReset, [])
  let jd1 := looped.1
  let newMap := looped.2
  let jd := { jd1 with hottest_threads := List.insertionSort (· ≥ ·) jd1.hottest_threads }
  if st.FirstLoop then
    ({ st with sampled_stats := newMap, FirstLoop := false, previous_sample_period := now }, jd)
  else
    let periodNs := now - st.previous_sample_period
    let maxCycles := maxCyclesQ st.cycle_counter_frequency periodNs
    let cores : ℚ := (min st.hardware_concurrency jd.threads_sampled : Nat)
    let load : ℚ := ((jd.total_jit_time : ℚ) / (maxCycles * cores)) * 100
    let jdOut := { jd with sample_period := periodNs, fex_load := load }
    let k := min st.hardware_concurrency jdOut.hottest_threads.length
    let loads : List MaxThreadLoad := (jdOut.hottest_threads.take k).map
      (fun (c : Nat) => { load_percentage := ((c : ℚ) / maxCycles) * 100, TotalCycles := c })
    let entry : HistogramData :=
      { load_percentage := load
        high_jit_load := decide (maxCycles ≤ (jdOut.total_jit_time : ℚ))
        high_invalidation_or_smc := decide (500 ≤ jdOut.TotalThisPeriod.SMCCount)
        high_sigbus := decide (5000 ≤ jdOut.TotalThisPeriod.SIGBUSCount)
        high_softfloat := decide (1000000 ≤ jdOut.TotalThisPeriod.FloatFallbackCount) }
    ({ st with
        sampled_stats := newMap
        max_thread_loads := loads
        fex_load_histogram := st.fex_load_histogram.tail ++ [entry]
        FirstLoop := false
        previous_sample_period := now }, jdOut)

/-- A whole sampling pass starting from the shared-memory walk. -/
def runPass (st : FexState) (jd : JITData) (shm : Nat → ThreadStats)
    (size fuel headOff now : Nat) : FexState × JITData :=
  AccumulateJITStats st jd (headRecords shm size fuel headOff) now

/-- Modelled from the spec wording of section 4.5 for comparison with the
code: `fex_load_percent = (sum / (max_cycles * active_cores)) * 100` with
`active_cores = min(hardware_concurrency, threads_sampled)`; the numerator
is passed in so the claimed numerator (sum of jit_time deltas) and the
code numerator (sum of jit_time plus signal_time deltas) can be compared. -/
def spec_fex_load_percent (sumDeltas freq periodNs hc threads : Nat) : ℚ :=
  ((sumDeltas : ℚ) / (maxCyclesQ freq periodNs * ((min hc threads : Nat) : ℚ))) * 100

/-- The exact (non-wrapping) jit_time delta of one differ entry. -/
def trueJitDelta (r : RetainedStats) : Nat :=
  r.Stats.AccumulatedJITTime - r.PreviousStats.AccumulatedJITTime

/-- The exact (non-wrapping) jit_time plus signal_time delta of one differ
entry. -/
def trueTotalTime (r : RetainedStats) : Nat :=
  (r.Stats.AccumulatedJITTime - r.PreviousStats.AccumulatedJITTime)
    + (r.Stats.AccumulatedSignalTime - r.PreviousStats.AccumulatedSignalTime)

/-- What the accumulation loop does to one map entry of the differ state:
`none` when the entry is erased as stale, otherwise the entry with
`PreviousStats` re-seated to the freshly sampled counters. -/
def keepEntry (now : Nat) (e : Nat × RetainedStats) : Option (Nat × RetainedStats) :=
  if staleTimeoutNs ≤ now - e.2.LastSeen then none else some (e.1, resyncEntry e.2)

/-- Whether a map entry survives the stale check of the accumulation loop. -/
def isFresh (now : Nat) (e : Nat × RetainedStats) : Bool :=
  decide (now - e.2.LastSeen < staleTimeoutNs)

theorem add64_of_lt {a b : Nat} (h : a + b < U64) : add64 a b = a + b := by
  unfold add64
  exact Nat.mod_eq_of_lt h

theorem sub64_of_le {a b : Nat} (hba : b ≤ a) (ha : a < U64) : sub64 a b = a - b := by
  have hb : b < U64 := lt_of_le_of_lt hba ha
  unfold sub64
  rw [Nat.mod_eq_of_lt ha, Nat.mod_eq_of_lt hb]
  have h1 : a + (U64 - b) = U64 + (a - b) := by omega
  rw [h1, Nat.add_mod_left, Nat.mod_eq_of_lt (by omega)]

theorem sub64_of_lt {a b : Nat} (hab : a < b) (hb : b < U64) : sub64 a b = U64 - (b - a) := by
  have ha : a < U64 := lt_trans hab hb
  unfold sub64
  rw [Nat.mod_eq_of_lt ha, Nat.mod_eq_of_lt hb, Nat.mod_eq_of_lt (by omega)]
  omega

theorem foldl_add64_eq_sum (l : List Nat) :
    ∀ a : Nat, a + l.sum < U64 → l.foldl add64 a = a + l.sum := by
  induction l with
  | nil => intro a _; simp
  | cons x l ih =>
    intro a h
    simp only [List.sum_cons] at h
    simp only [List.foldl_cons]
    have hax : add64 a x = a + x := add64_of_lt (by omega)
    rw [hax, ih (a + x) (by omega), List.sum_cons]
    omega

theorem stepEntry_fst (now : Nat) (acc : JITData × List (Nat × RetainedStats))
    (e : Nat × RetainedStats) :
    (stepEntry now acc e).1.threads_sampled = acc.1.threads_sampled + 1
    ∧ (stepEntry now acc e).1.total_jit_time = add64 acc.1.total_jit_time (totalTime e.2)
    ∧ (stepEntry now acc e).1.TotalThisPeriod = addCounters64 acc.1.TotalThisPeriod (deltaOf e.2)
    ∧ (stepEntry now acc e).1.sample_period = acc.1.sample_period
    ∧ (stepEntry now acc e).1.fex_load = acc.1.fex_load := by
  by_cases h : staleTimeoutNs ≤ now - e.2.LastSeen <;>
    simp [stepEntry, h, totalTime]

theorem foldl_stepEntry_threads (now : Nat) (l : List (Nat × RetainedStats)) :
    ∀ (jd : JITData) (out : List (Nat × RetainedStats)),
    (l.foldl (stepEntry now) (jd, out)).1.threads_sampled = jd.threads_sampled + l.length := by
  induction l with
  | nil => intro jd out; simp
  | cons e l ih =>
    intro jd out
    simp only [List.foldl_cons, List.length_cons]
    by_cases h : staleTimeoutNs ≤ now - e.2.LastSeen
    · simp only [stepEntry, h, if_true]
      rw [ih]
      simp
      omega
    · simp only [stepEntry, h, if_false]
      rw [ih]
      simp
      omega

theorem foldl_stepEntry_total (now : Nat) (l : List (Nat × RetainedStats)) :
    ∀ (jd : JITData) (out : List (Nat × RetainedStats)),
    (l.foldl (stepEntry now) (jd, out)).1.total_jit_time
      = (l.map (fun e => totalTime e.2)).foldl add64 jd.total_jit_time := by
  induction l with
  | nil => intro jd out; simp
  | cons e l ih =>
    intro jd out
    simp only [List.foldl_cons, List.map_cons]
    by_cases h : staleTimeoutNs ≤ now - e.2.LastSeen
    · simp only [stepEntry, h, if_true]
      rw [ih]
      simp [totalTime]
    · simp only [stepEntry, h, if_false]
      rw [ih]
      simp [totalTime]

theorem foldl_stepEntry_period (now : Nat) (l : List (Nat × RetainedStats)) :
    ∀ (jd : JITData) (out : List (Nat × RetainedStats)),
    (l.foldl (stepEntry now) (jd, out)).1.TotalThisPeriod
      = (l.map (fun e => deltaOf e.2)).foldl addCounters64 jd.TotalThisPeriod := by
  induction l with
  | nil => intro jd out; simp
  | cons e l ih =>
    intro jd out
    simp only [List.foldl_cons, List.map_cons]
    by_cases h : staleTimeoutNs ≤ now - e.2.LastSeen
    · simp only [stepEntry, h, if_true]
      rw [ih]
    · simp only [stepEntry, h, if_false]
      rw [ih]

theorem foldl_stepEntry_hottest (now : Nat) (l : List (Nat × RetainedStats)) :
    ∀ (jd : JITData) (out : List (Nat × RetainedStats)),
    (l.foldl (stepEntry now) (jd, out)).1.hottest_threads
      = jd.hottest_threads ++ (l.filter (isFresh now)).map (fun e => totalTime e.2) := by
  induction l with
  | nil => intro jd out; simp
  | cons e l ih =>
    intro jd out
    simp only [List.foldl_cons]
    by_cases h : staleTimeoutNs ≤ now - e.2.LastSeen
    · have hf : isFresh now e = false := by
        simp [isFresh]
        omega
      simp only [stepEntry, h, if_true]
      rw [ih]
      simp [List.filter_cons, hf]
    · have hf : isFresh now e = true := by
        simp [isFresh]
        omega
      simp only [stepEntry, h, if_false]
      rw [ih]
      simp [List.filter_cons, hf, totalTime]

theorem foldl_stepEntry_map (now : Nat) (l : List (Nat × RetainedStats)) :
    ∀ (jd : JITData) (out : List (Nat × RetainedStats)),
    (l.foldl (stepEntry now) (jd, out)).2 = out ++ l.filterMap (keepEntry now) := by
  induction l with
  | nil => intro jd out; simp
  | cons e l ih =>
    intro jd out
    simp only [List.foldl_cons, List.filterMap_cons]
    by_cases h : staleTimeoutNs ≤ now - e.2.LastSeen
    · simp only [stepEntry, h, if_true, keepEntry]
      rw [ih]
    · simp only [stepEntry, h, if_false, keepEntry]
      rw [ih]
      simp [h]

theorem foldl_stepEntry_misc (now : Nat) (l : List (Nat × RetainedStats)) :
    ∀ (jd : JITData) (out : List (Nat × RetainedStats)),
    (l.foldl (stepEntry now) (jd, out)).1.sample_period = jd.sample_period
    ∧ (l.foldl (stepEntry now) (jd, out)).1.fex_load = jd.fex_load := by
  induction l with
  | nil => intro jd out; simp
  | cons e l ih =>
    intro jd out
    simp only [List.foldl_cons]
    by_cases h : staleTimeoutNs ≤ now - e.2.LastSeen
    · simp only [stepEntry, h, if_true]
      rw [(ih _ _).1, (ih _ _).2]
      simp
    · simp only [stepEntry, h, if_false]
      rw [(ih _ _).1, (ih _ _).2]
      simp

theorem sub64_zero {a : Nat} (h : a < U64) : sub64 a 0 = a := by
  unfold sub64
  simp [Nat.mod_eq_of_lt h, Nat.add_mod_right]

/-- All nine counters of a record fit in uint64_t. -/
def StatsBounded (s : ThreadStats) : Prop :=
  s.AccumulatedJITTime < U64 ∧ s.AccumulatedSignalTime < U64 ∧ s.SIGBUSCount < U64
    ∧ s.SMCCount < U64 ∧ s.FloatFallbackCount < U64 ∧ s.AccumulatedCacheMissCount < U64
    ∧ s.AccumulatedCacheReadLockTime < U64 ∧ s.AccumulatedCacheWriteLockTime < U64
    ∧ s.AccumulatedJITCount < U64

instance (s : ThreadStats) : Decidable (StatsBounded s) := by
  unfold StatsBounded
  infer_instance

theorem mem_keys_insertSample (now : Nat) (s : ThreadStats) (x : Nat) :
    ∀ m : List (Nat × RetainedStats),
    (x ∈ (insertSample m now s).map Prod.fst ↔ x ∈ m.map Prod.fst ∨ x = s.TID) := by
  intro m
  induction m with
  | nil => simp [insertSample]
  | cons e rest ih =>
    by_cases h : e.1 = s.TID
    · simp [insertSample, h]
      tauto
    · simp [insertSample, h, ih]
      tauto

theorem nodup_keys_insertSample (now : Nat) (s : ThreadStats) :
    ∀ m : List (Nat × RetainedStats),
    (m.map Prod.fst).Nodup → ((insertSample m now s).map Prod.fst).Nodup := by
  intro m
  induction m with
  | nil => simp [insertSample]
  | cons e rest ih =>
    intro hnd
    simp only [List.map_cons, List.nodup_cons] at hnd
    by_cases h : e.1 = s.TID
    · simp only [insertSample, h, if_true, List.map_cons, List.nodup_cons]
      exact ⟨by simpa [h] using hnd.1, hnd.2⟩
    · simp only [insertSample, h, if_false, List.map_cons, List.nodup_cons]
      refine ⟨?_, ih hnd.2⟩
      rw [mem_keys_insertSample]
      intro hc
      rcases hc with hc | hc
      · exact hnd.1 hc
      · exact h hc

theorem nodup_keys_SampleStats (now : Nat) (records : List ThreadStats) :
    ∀ m : List (Nat × RetainedStats),
    (m.map Prod.fst).Nodup → ((SampleStats m now records).map Prod.fst).Nodup := by
  induction records with
  | nil => intro m h; exact h
  | cons s rs ih =>
    intro m h
    exact ih (insertSample m now s) (nodup_keys_insertSample now s m h)

theorem lookupTid_insertSample (now : Nat) (s : ThreadStats) (t : Nat) :
    ∀ m : List (Nat × RetainedStats),
    lookupTid (insertSample m now s) t
      = if t = s.TID then
          (match lookupTid m s.TID with
           | none => some { LastSeen := now, PreviousStats := ThreadStats.zero, Stats := s }
           | some r => some { r with Stats := s, LastSeen := now })
        else lookupTid m t := by
  intro m
  induction m with
  | nil =>
    by_cases h : t = s.TID <;> simp [insertSample, lookupTid, h]
    exact fun hx => h hx.symm
  | cons e rest ih =>
    by_cases ht : t = s.TID
    · subst ht
      by_cases he : e.1 = s.TID
      · simp [insertSample, lookupTid, he]
      · simp [insertSample, lookupTid, he, ih]
    · by_cases he : e.1 = s.TID
      · have hts : ¬ s.TID = t := fun hx => ht hx.symm
        have het : e.1 ≠ t := by
          rw [he]
          exact hts
        simp [insertSample, lookupTid, he, het, ht, hts]
      · by_cases het : e.1 = t
        · simp [insertSample, lookupTid, he, het, ht]
        · simp [insertSample, lookupTid, he, het, ht, ih]

theorem lookupTid_mem {m : List (Nat × RetainedStats)} {t : Nat} {r : RetainedStats} :
    lookupTid m t = some r → (t, r) ∈ m := by
  induction m with
  | nil => simp [lookupTid]
  | cons e rest ih =>
    by_cases h : e.1 = t
    · simp only [lookupTid, h, if_true, Option.some_inj, List.mem_cons]
      intro hr
      left
      rw [← h, ← hr]
    · simp only [lookupTid, h, if_false, List.mem_cons]
      intro hr
      right
      exact ih hr

theorem SampleStats_nil (m : List (Nat × RetainedStats)) (now : Nat) :
    SampleStats m now [] = m := rfl

theorem lookupTid_SampleStats_zero (now : Nat) (rec : ThreadStats) :
    ∀ (records : List ThreadStats) (m : List (Nat × RetainedStats)),
    (lookupTid m rec.TID = none
        ∧ records.filter (fun s => decide (s.TID = rec.TID)) = [rec])
      ∨ (lookupTid m rec.TID
            = some { LastSeen := now, PreviousStats := ThreadStats.zero, Stats := rec }
        ∧ records.filter (fun s => decide (s.TID = rec.TID)) = []) →
    lookupTid (SampleStats m now records) rec.TID
      = some { LastSeen := now, PreviousStats := ThreadStats.zero, Stats := rec } := by
  intro records
  induction records with
  | nil =>
    intro m h
    rcases h with ⟨_, hf⟩ | ⟨hl, _⟩
    · simp at hf
    · exact hl
  | cons s rs ih =>
    intro m h
    show lookupTid (SampleStats (insertSample m now s) now rs) rec.TID = _
    rcases h with ⟨hl, hf⟩ | ⟨hl, hf⟩
    · rw [List.filter_cons] at hf
      by_cases hst : s.TID = rec.TID
      · simp only [hst, decide_True, if_true, List.cons.injEq] at hf
        apply ih
        right
        refine ⟨?_, hf.2⟩
        rw [lookupTid_insertSample]
        have hts : rec.TID = s.TID := hst.symm
        rw [if_pos hts, hst, hl, hf.1]
      · simp only [hst, decide_False, if_false] at hf
        apply ih
        left
        refine ⟨?_, hf⟩
        rw [lookupTid_insertSample]
        have hts : ¬ rec.TID = s.TID := fun hx => hst hx.symm
        rw [if_neg hts]
        exact hl
    · rw [List.filter_cons] at hf
      by_cases hst : s.TID = rec.TID
      · simp only [hst, decide_True, if_true] at hf
        exact absurd hf (List.cons_ne_nil _ _)
      · simp only [hst, decide_False, if_false] at hf
        apply ih
        right
        refine ⟨?_, hf⟩
        rw [lookupTid_insertSample]
        have hts : ¬ rec.TID = s.TID := fun hx => hst hx.symm
        rw [if_neg hts]
        exact hl

theorem mem_eq_of_nodup_keys :
    ∀ (m : List (Nat × RetainedStats)), (m.map Prod.fst).Nodup →
    ∀ (t : Nat) (a b : RetainedStats), (t, a) ∈ m → (t, b) ∈ m → a = b := by
  intro m
  induction m with
  | nil =>
    intro _ t a b ha
    simp at ha
  | cons e rest ih =>
    intro hnd t a b ha hb
    simp only [List.map_cons, List.nodup_cons] at hnd
    rcases List.mem_cons.mp ha with ha1 | ha2
    · rcases List.mem_cons.mp hb with hb1 | hb2
      · exact (Prod.ext_iff.mp (ha1.trans hb1.symm)).2
      · exfalso
        apply hnd.1
        have hmm := List.mem_map_of_mem Prod.fst hb2
        rw [← ha1]
        exact hmm
    · rcases List.mem_cons.mp hb with hb1 | hb2
      · exfalso
        apply hnd.1
        have hmm := List.mem_map_of_mem Prod.fst ha2
        rw [← hb1]
        exact hmm
      · exact ih hnd.2 t a b ha2 hb2

theorem AccumulateJITStats_sampled_stats (st : FexState) (jd : JITData)
    (records : List ThreadStats) (now : Nat) :
    (AccumulateJITStats st jd records now).1.sampled_stats
      = (SampleStats st.sampled_stats now records).filterMap (keepEntry now) := by
  by_cases hf : st.FirstLoop <;>
    simp [AccumulateJITStats, hf, foldl_stepEntry_map]

theorem accumulate_threads_eq (st : FexState) (jd : JITData)
    (records : List ThreadStats) (now : Nat) :
    (AccumulateJITStats st jd records now).2.threads_sampled
      = (SampleStats st.sampled_stats now records).length := by
  by_cases hf : st.FirstLoop <;>
    simp [AccumulateJITStats, hf, foldl_stepEntry_threads]

theorem accumulate_TotalThisPeriod_eq (st : FexState) (jd : JITData)
    (records : List ThreadStats) (now : Nat) :
    (AccumulateJITStats st jd records now).2.TotalThisPeriod
      = ((SampleStats st.sampled_stats now records).map (fun e => deltaOf e.2)).foldl
          addCounters64 ThreadStats.zero := by
  by_cases hf : st.FirstLoop <;>
    simp [AccumulateJITStats, hf, foldl_stepEntry_period]

theorem accumulate_total_eq (st : FexState) (jd : JITData)
    (records : List ThreadStats) (now : Nat) :
    (AccumulateJITStats st jd records now).2.total_jit_time
      = ((SampleStats st.sampled_stats now records).map (fun e => totalTime e.2)).foldl add64 0 := by
  by_cases hf : st.FirstLoop <;>
    simp [AccumulateJITStats, hf, foldl_stepEntry_total]

theorem accumulate_fex_load_eq (st : FexState) (jd : JITData)
    (records : List ThreadStats) (now : Nat) (hf : st.FirstLoop = false) :
    (AccumulateJITStats st jd records now).2.fex_load
      = (((((SampleStats st.sampled_stats now records).map (fun e => totalTime e.2)).foldl add64 0 : Nat) : ℚ)
          / (maxCyclesQ st.cycle_counter_frequency (now - st.previous_sample_period)
             * ((min st.hardware_concurrency (SampleStats st.sampled_stats now records).length : Nat) : ℚ))
        * 100) := by
  simp [AccumulateJITStats, hf, foldl_stepEntry_total, foldl_stepEntry_threads]

theorem totalTime_eq_trueTotalTime {r : RetainedStats}
    (h1 : r.PreviousStats.AccumulatedJITTime ≤ r.Stats.AccumulatedJITTime)
    (h2 : r.Stats.AccumulatedJITTime < U64)
    (h3 : r.PreviousStats.AccumulatedSignalTime ≤ r.Stats.AccumulatedSignalTime)
    (h4 : r.Stats.AccumulatedSignalTime < U64)
    (h5 : trueTotalTime r < U64) :
    totalTime r = trueTotalTime r := by
  unfold trueTotalTime at *
  simp only [totalTime, deltaOf]
  rw [sub64_of_le h1 h2, sub64_of_le h3 h4]
  exact add64_of_lt h5

theorem foldl_total_eq_sum (l : List (Nat × RetainedStats))
    (hmono : ∀ e ∈ l,
        e.2.PreviousStats.AccumulatedJITTime ≤ e.2.Stats.AccumulatedJITTime
        ∧ e.2.Stats.AccumulatedJITTime < U64
        ∧ e.2.PreviousStats.AccumulatedSignalTime ≤ e.2.Stats.AccumulatedSignalTime
        ∧ e.2.Stats.AccumulatedSignalTime < U64)
    (hsum : (l.map (fun e => trueTotalTime e.2)).sum < U64) :
    (l.map (fun e => totalTime e.2)).foldl add64 0 = (l.map (fun e => trueTotalTime e.2)).sum := by
  have hmap : l.map (fun e => totalTime e.2) = l.map (fun e => trueTotalTime e.2) := by
    apply List.map_congr_left
    intro e he
    obtain ⟨h1, h2, h3, h4⟩ := hmono e he
    apply totalTime_eq_trueTotalTime h1 h2 h3 h4
    calc trueTotalTime e.2 ≤ (l.map (fun e => trueTotalTime e.2)).sum :=
          List.single_le_sum (fun x _ => Nat.zero_le x) _ (List.mem_map_of_mem _ he)
      _ < U64 := hsum
  rw [hmap]
  have := foldl_add64_eq_sum (l.map (fun e => trueTotalTime e.2)) 0 (by omega)
  omega

/-- Convenience constructor for concrete ThreadStats records. -/
def mkRec (tid jit sig : Nat) : ThreadStats :=
  { ThreadStats.zero with TID := tid, AccumulatedJITTime := jit, AccumulatedSignalTime := sig }

/-- A state one second after a completed first pass: one tracked thread with
half a second of accumulated JIT time gained this period. -/
def c1wState : FexState :=
  { initState 4 1000000000 with
      FirstLoop := false
      previous_sample_period := 1000000000
      sampled_stats := [(7,
        { LastSeen := 2000000000, PreviousStats := mkRec 7 0 0, Stats := mkRec 7 500000000 0 })] }

/-- Like c1wState but the half second of accumulated time sits in the
signal-time counter, not the JIT-time counter. -/
def c1cState : FexState :=
  { initState 4 1000000000 with
      FirstLoop := false
      previous_sample_period := 1000000000
      sampled_stats := [(7,
        { LastSeen := 2000000000, PreviousStats := mkRec 7 0 0, Stats := mkRec 7 0 500000000 })] }

/-- Claim C1 (corrected): for every sampling pass after the first, with
monotone non-overflowing counters, the emitted fex_load equals the sum of
the per-thread jit_time PLUS signal_time deltas divided by
(max_cycles × active_cores), times 100, where
active_cores = min(hardware_concurrency, threads_sampled); and when
hardware_concurrency or threads_sampled is zero the modelled (rational)
value is 0.  The original claim takes the jit_time deltas alone as the
numerator; the code (lines 813-817) accumulates the jit_time and
signal_time deltas together into total_jit_time. -/
theorem c1_fex_load (st : FexState) (jd : JITData) (records : List ThreadStats) (now : Nat)
    (hf : st.FirstLoop = false)
    (hmono : ∀ e ∈ SampleStats st.sampled_stats now records,
        e.2.PreviousStats.AccumulatedJITTime ≤ e.2.Stats.AccumulatedJITTime
        ∧ e.2.Stats.AccumulatedJITTime < U64
        ∧ e.2.PreviousStats.AccumulatedSignalTime ≤ e.2.Stats.AccumulatedSignalTime
        ∧ e.2.Stats.AccumulatedSignalTime < U64)
    (hsum : ((SampleStats st.sampled_stats now records).map (fun e => trueTotalTime e.2)).sum < U64) :
    (AccumulateJITStats st jd records now).2.fex_load
      = spec_fex_load_percent
          (((SampleStats st.sampled_stats now records).map (fun e => trueTotalTime e.2)).sum)
          st.cycle_counter_frequency (now - st.previous_sample_period)
          st.hardware_concurrency
          ((AccumulateJITStats st jd records now).2.threads_sampled)
    ∧ ((st.hardware_concurrency = 0 ∨ (AccumulateJITStats st jd records now).2.threads_sampled = 0)
        → (AccumulateJITStats st jd records now).2.fex_load = 0) := by
  have htot := foldl_total_eq_sum _ hmono hsum
  have hth := accumulate_threads_eq st jd records now
  have hld := accumulate_fex_load_eq st jd records now hf
  constructor
  · rw [hth, hld, htot]
    rfl
  · intro hz
    rw [hld]
    have hmin : min st.hardware_concurrency (SampleStats st.sampled_stats now records).length = 0 := by
      rcases hz with hz | hz
      · omega
      · rw [hth] at hz
        omega
    rw [hmin]
    simp

/-- Witness for c1_fex_load at a concrete steady-state input. -/
theorem c1_fex_load_witness :
    (AccumulateJITStats c1wState initJITData [] 2000000000).2.fex_load
      = spec_fex_load_percent
          (((SampleStats c1wState.sampled_stats 2000000000 []).map (fun e => trueTotalTime e.2)).sum)
          c1wState.cycle_counter_frequency (2000000000 - c1wState.previous_sample_period)
          c1wState.hardware_concurrency
          ((AccumulateJITStats c1wState initJITData [] 2000000000).2.threads_sampled) :=
  (c1_fex_load c1wState initJITData [] 2000000000 (by decide) (by decide) (by decide)).1

/-- Counterexample to claim C1 as stated: with a pure signal-time delta the
code reports a 50 percent load while the claimed formula over the jit_time
deltas alone yields 0. -/
theorem c1_counterexample :
    ¬ ((AccumulateJITStats c1cState initJITData [] 2000000000).2.fex_load
      = spec_fex_load_percent
          (((SampleStats c1cState.sampled_stats 2000000000 []).map (fun e => trueJitDelta e.2)).sum)
          c1cState.cycle_counter_frequency (2000000000 - c1cState.previous_sample_period)
          c1cState.hardware_concurrency
          ((AccumulateJITStats c1cState initJITData [] 2000000000).2.threads_sampled)) := by
  have hld := accumulate_fex_load_eq c1cState initJITData [] 2000000000 (by decide)
  have h1 : ((SampleStats c1cState.sampled_stats 2000000000 []).map
      (fun e => totalTime e.2)).foldl add64 0 = 500000000 := by decide
  have h2 : (SampleStats c1cState.sampled_stats 2000000000 []).length = 1 := by decide
  have h3 : ((SampleStats c1cState.sampled_stats 2000000000 []).map
      (fun e => trueJitDelta e.2)).sum = 0 := by decide
  have h4 : (AccumulateJITStats c1cState initJITData [] 2000000000).2.threads_sampled = 1 := by
    rw [accumulate_threads_eq]
    decide
  rw [hld, h1, h2, h3, h4]
  have hfreq : c1cState.cycle_counter_frequency = 1000000000 := by decide
  have hprev : c1cState.previous_sample_period = 1000000000 := by decide
  have hhc : c1cState.hardware_concurrency = 4 := by decide
  rw [hfreq, hprev, hhc]
  simp only [spec_fex_load_percent, maxCyclesQ]
  norm_num

/-- A differ entry whose JIT-time counter regressed from 10 to 5 between
samples. -/
def rC2ent : RetainedStats :=
  { LastSeen := 0, PreviousStats := mkRec 1 10 0, Stats := mkRec 1 5 0 }

/-- A non-first-pass state holding only the regressed entry. -/
def c2state : FexState :=
  { initState 4 1000000000 with FirstLoop := false, sampled_stats := [(1, rC2ent)] }

/-- Claim C2 (corrected): per-thread counter deltas are uint64_t wrapping
subtractions.  When a current counter is below the stored previous value
the emitted delta is 2^64 minus the regression, never clamped to zero;
previous is unconditionally re-seated to the new value by the memcpy of
line 831; and each counter delta depends only on that counter (shown for
the SMC counter, which stays the plain difference).  The totals of the
pass are exactly the fold of these per-entry deltas. -/
theorem c2_wrapping_delta (st : FexState) (jd : JITData) (records : List ThreadStats)
    (now t : Nat) (r : RetainedStats)
    (hmem : (t, r) ∈ SampleStats st.sampled_stats now records)
    (hreg : r.Stats.AccumulatedJITTime < r.PreviousStats.AccumulatedJITTime)
    (hb : r.PreviousStats.AccumulatedJITTime < U64)
    (hsmc : r.PreviousStats.SMCCount ≤ r.Stats.SMCCount)
    (hsb : r.Stats.SMCCount < U64) :
    (deltaOf r).AccumulatedJITTime
        = U64 - (r.PreviousStats.AccumulatedJITTime - r.Stats.AccumulatedJITTime)
    ∧ (deltaOf r).AccumulatedJITTime ≠ 0
    ∧ (deltaOf r).SMCCount = r.Stats.SMCCount - r.PreviousStats.SMCCount
    ∧ (now - r.LastSeen < staleTimeoutNs →
        (t, resyncEntry r) ∈ (AccumulateJITStats st jd records now).1.sampled_stats)
    ∧ (AccumulateJITStats st jd records now).2.TotalThisPeriod
        = ((SampleStats st.sampled_stats now records).map (fun e => deltaOf e.2)).foldl
            addCounters64 ThreadStats.zero := by
  have hj : (deltaOf r).AccumulatedJITTime
      = U64 - (r.PreviousStats.AccumulatedJITTime - r.Stats.AccumulatedJITTime) := by
    simp only [deltaOf]
    exact sub64_of_lt hreg hb
  refine ⟨hj, ?_, ?_, ?_, accumulate_TotalThisPeriod_eq st jd records now⟩
  · rw [hj]
    omega
  · simp only [deltaOf]
    exact sub64_of_le hsmc hsb
  · intro hfr
    rw [AccumulateJITStats_sampled_stats]
    apply List.mem_filterMap.mpr
    refine ⟨(t, r), hmem, ?_⟩
    simp [keepEntry, Nat.not_le.mpr hfr]

/-- Witness for c2_wrapping_delta at the concrete regressed entry. -/
theorem c2_wrapping_delta_witness :
    (deltaOf rC2ent).AccumulatedJITTime
        = U64 - (rC2ent.PreviousStats.AccumulatedJITTime - rC2ent.Stats.AccumulatedJITTime)
    ∧ (deltaOf rC2ent).AccumulatedJITTime ≠ 0
    ∧ (deltaOf rC2ent).SMCCount = rC2ent.Stats.SMCCount - rC2ent.PreviousStats.SMCCount
    ∧ (1, resyncEntry rC2ent) ∈ (AccumulateJITStats c2state initJITData [] 0).1.sampled_stats := by
  have h := c2_wrapping_delta c2state initJITData [] 0 1 rC2ent (by decide) (by decide)
    (by decide) (by decide) (by decide)
  exact ⟨h.1, h.2.1, h.2.2.1, h.2.2.2.1 (by decide)⟩

/-- Counterexample to claim C2 as stated: on the regressed entry the pass
emits a JIT-time delta of 2^64 - 5, not zero. -/
theorem c2_counterexample :
    (AccumulateJITStats c2state initJITData [] 0).2.TotalThisPeriod.AccumulatedJITTime = U64 - 5
    ∧ (AccumulateJITStats c2state initJITData [] 0).2.TotalThisPeriod.AccumulatedJITTime ≠ 0 := by
  constructor <;> decide

/-- Claim C3 (corrected): when a raw record's tid is not yet in the differ
map, SampleStats inserts an entry with last_seen = now whose previous
counters are zero-initialised (std::map operator[] default construction),
NOT a copy of the raw record; consequently the delta emitted for that
thread in that same pass equals the full raw counter values, not zero. -/
theorem c3_fresh_thread (st : FexState) (jd : JITData) (records : List ThreadStats)
    (now : Nat) (rec : ThreadStats)
    (hfresh : lookupTid st.sampled_stats rec.TID = none)
    (honce : records.filter (fun s => decide (s.TID = rec.TID)) = [rec])
    (hb : StatsBounded rec) :
    lookupTid (SampleStats st.sampled_stats now records) rec.TID
      = some { LastSeen := now, PreviousStats := ThreadStats.zero, Stats := rec }
    ∧ deltaOf { LastSeen := now, PreviousStats := ThreadStats.zero, Stats := rec }
        = { rec with Next := 0, TID := 0 }
    ∧ (AccumulateJITStats st jd records now).2.TotalThisPeriod
        = ((SampleStats st.sampled_stats now records).map (fun e => deltaOf e.2)).foldl
            addCounters64 ThreadStats.zero := by
  refine ⟨?_, ?_, accumulate_TotalThisPeriod_eq st jd records now⟩
  · exact lookupTid_SampleStats_zero now rec records st.sampled_stats (Or.inl ⟨hfresh, honce⟩)
  · obtain ⟨h1, h2, h3, h4, h5, h6, h7, h8, h9⟩ := hb
    simp [deltaOf, ThreadStats.zero, sub64_zero h1, sub64_zero h2, sub64_zero h3, sub64_zero h4,
      sub64_zero h5, sub64_zero h6, sub64_zero h7, sub64_zero h8, sub64_zero h9]

/-- Witness for c3_fresh_thread: a never-seen thread with jit_time 100. -/
theorem c3_fresh_thread_witness :
    lookupTid (SampleStats (initState 4 1000000000).sampled_stats 5 [mkRec 7 100 0]) 7
      = some { LastSeen := 5, PreviousStats := ThreadStats.zero, Stats := mkRec 7 100 0 } :=
  (c3_fresh_thread (initState 4 1000000000) initJITData [mkRec 7 100 0] 5 (mkRec 7 100 0)
    (by decide) (by decide) (by decide)).1

/-- Counterexample to claim C3 as stated: a fresh thread with raw
jit_time = 100 contributes a delta of 100 (not zero) to the pass totals,
and the entry inserted for it does not carry previous = raw. -/
theorem c3_counterexample :
    (AccumulateJITStats (initState 4 1000000000) initJITData
        [mkRec 7 100 0] 5).2.TotalThisPeriod.AccumulatedJITTime ≠ 0
    ∧ lookupTid (SampleStats (initState 4 1000000000).sampled_stats 5 [mkRec 7 100 0]) 7
        ≠ some { LastSeen := 5, PreviousStats := mkRec 7 100 0, Stats := mkRec 7 100 0 } := by
  constructor <;> decide

theorem walkOffsets_mem (shm : Nat → ThreadStats) (size : Nat) :
    ∀ (fuel off : Nat), ∀ o ∈ walkOffsets shm size fuel off, o ≠ 0 ∧ o < size := by
  intro fuel
  induction fuel with
  | zero =>
    intro off o ho
    simp [walkOffsets] at ho
  | succ n ih =>
    intro off o ho
    by_cases h0 : off = 0
    · simp [walkOffsets, h0] at ho
    · by_cases hs : size ≤ off
      · simp [walkOffsets, h0, hs] at ho
      · simp only [walkOffsets, h0, hs, if_false] at ho
        rcases List.mem_cons.mp ho with rfl | hmem
        · exact ⟨h0, Nat.lt_of_not_le hs⟩
        · exact ih _ o hmem

theorem walkOffsets_oob (shm : Nat → ThreadStats) (size fuel off : Nat) (h : size ≤ off) :
    walkOffsets shm size fuel off = [] := by
  cases fuel with
  | zero => rfl
  | succ n =>
    by_cases h0 : off = 0
    · simp [walkOffsets, h0]
    · simp [walkOffsets, h0, h]

/-- Claim C4 (corrected): every record offset the walk dereferences
satisfies off ≠ 0 and off < mapped_size — the source checks the offset
alone, not offset + record_size ≤ mapped_size, so a record straddling the
end of the mapping is still read; an offset at or past the mapped size
truncates the walk; and the pass still produces its frame from the records
seen so far (runPass is AccumulateJITStats applied to exactly the walked
records). -/
theorem c4_walk_bounds (shm : Nat → ThreadStats) (size fuel headOff : Nat) :
    (∀ o ∈ walkOffsets shm size fuel headOff, o ≠ 0 ∧ o < size)
    ∧ (size ≤ headOff → walkOffsets shm size fuel headOff = [])
    ∧ (∀ (st : FexState) (jd : JITData) (now : Nat),
        runPass st jd shm size fuel headOff now
          = AccumulateJITStats st jd (headRecords shm size fuel headOff) now) :=
  ⟨walkOffsets_mem shm size fuel headOff, walkOffsets_oob shm size fuel headOff,
   fun _ _ _ => rfl⟩

/-- Witness for c4_walk_bounds: a walked offset is nonzero and in range,
and an out-of-range head offset yields an empty walk. -/
theorem c4_walk_bounds_witness :
    (16 ≠ 0 ∧ 16 < 4096) ∧ walkOffsets (fun _ => ThreadStats.zero) 4096 3 4096 = [] :=
  ⟨(c4_walk_bounds (fun _ => ThreadStats.zero) 4096 3 16).1 16 (by decide),
   (c4_walk_bounds (fun _ => ThreadStats.zero) 4096 3 4096).2.1 (by decide)⟩

/-- Counterexample to claim C4 as stated: with a 4096-byte mapping the walk
dereferences offset 4090 although 4090 plus the 80-byte record size
exceeds the mapped size. -/
theorem c4_counterexample :
    4090 ∈ walkOffsets (fun _ => ThreadStats.zero) 4096 2 4090
    ∧ ¬ (4090 + sizeofThreadStats ≤ 4096) := by
  constructor <;> decide

/-- Claim C5 (corrected): the histogram length is never min(n_passes-1, 200);
the vector is constructed with 200 zero entries and every pass preserves
length exactly 200 (each pass after the first erases the oldest entry and
appends one new entry). -/
theorem c5_histogram_length (st : FexState) (jd : JITData) (records : List ThreadStats)
    (now : Nat) (hlen : st.fex_load_histogram.length = 200) :
    (AccumulateJITStats st jd records now).1.fex_load_histogram.length = 200 := by
  by_cases hf : st.FirstLoop
  · simp [AccumulateJITStats, hf, hlen]
  · simp [AccumulateJITStats, hf, List.length_tail, hlen]

/-- Witness for c5_histogram_length starting from the freshly constructed
state. -/
theorem c5_histogram_length_witness :
    (initState 4 1000000000).fex_load_histogram.length = 200
    ∧ (AccumulateJITStats (initState 4 1000000000) initJITData []
        1000000000).1.fex_load_histogram.length = 200 :=
  ⟨by decide, c5_histogram_length (initState 4 1000000000) initJITData [] 1000000000 (by decide)⟩

/-- Counterexample to claim C5 as stated: after the second pass
(n_passes = 2) the histogram length is 200, not min(2-1, 200) = 1. -/
theorem c5_counterexample :
    ¬ ((AccumulateJITStats
          (AccumulateJITStats (initState 4 1000000000) initJITData [] 1000000000).1
          (AccumulateJITStats (initState 4 1000000000) initJITData [] 1000000000).2
          [] 2000000000).1.fex_load_histogram.length
        = min (2 - 1) 200) := by
  decide

/-- The total_time values of the map entries that survive the stale check,
in iteration order: the contents of hottest_threads before sorting. -/
def keptTimes (st : FexState) (records : List ThreadStats) (now : Nat) : List Nat :=
  ((SampleStats st.sampled_stats now records).filter (isFresh now)).map (fun e => totalTime e.2)

theorem accumulate_loads_eq (st : FexState) (jd : JITData) (records : List ThreadStats)
    (now : Nat) (hf : st.FirstLoop = false) :
    (AccumulateJITStats st jd records now).1.max_thread_loads
      = ((List.insertionSort (· ≥ ·) (keptTimes st records now)).take
          (min st.hardware_concurrency (keptTimes st records now).length)).map
          (fun c =>
            { load_percentage := ((c : ℚ)
                / maxCyclesQ st.cycle_counter_frequency (now - st.previous_sample_period)) * 100
              TotalCycles := c }) := by
  simp [AccumulateJITStats, hf, foldl_stepEntry_hottest, keptTimes]

/-- Claim C6 (corrected): after every pass beyond the first the per-thread
load list holds min(hardware_concurrency, surviving tracked threads)
entries — capped at hardware_concurrency but NOT additionally at 32 — and
holds the largest (jit_time + signal_time) delta values sorted descending:
its cycle values are exactly the top prefix of the descending sort of the
surviving total times, and every retained value dominates every dropped
one.  (The min(..., 32) of the original claim exists only in the display
code, line 682, not in the load-list computation of lines 856-862.) -/
theorem c6_thread_loads (st : FexState) (jd : JITData) (records : List ThreadStats)
    (now : Nat) (hf : st.FirstLoop = false) :
    (AccumulateJITStats st jd records now).1.max_thread_loads.length
        = min st.hardware_concurrency (keptTimes st records now).length
    ∧ (AccumulateJITStats st jd records now).1.max_thread_loads.length
        ≤ st.hardware_concurrency
    ∧ List.Pairwise (fun a b => b.TotalCycles ≤ a.TotalCycles)
        (AccumulateJITStats st jd records now).1.max_thread_loads
    ∧ (AccumulateJITStats st jd records now).1.max_thread_loads.map MaxThreadLoad.TotalCycles
        = (List.insertionSort (· ≥ ·) (keptTimes st records now)).take
            (min st.hardware_concurrency (keptTimes st records now).length)
    ∧ ∀ x ∈ (AccumulateJITStats st jd records now).1.max_thread_loads,
        ∀ y ∈ (List.insertionSort (· ≥ ·) (keptTimes st records now)).drop
            (min st.hardware_concurrency (keptTimes st records now).length),
        y ≤ x.TotalCycles := by
  rw [accumulate_loads_eq st jd records now hf]
  have hsorted : List.Sorted (· ≥ ·) (List.insertionSort (· ≥ ·) (keptTimes st records now)) :=
    List.sorted_insertionSort (· ≥ ·) (keptTimes st records now)
  refine ⟨?_, ?_, ?_, ?_, ?_⟩
  · simp only [List.length_map, List.length_take, List.length_insertionSort]
    omega
  · simp only [List.length_map, List.length_take, List.length_insertionSort]
    omega
  · rw [List.pairwise_map]
    simpa using hsorted.sublist
      (List.take_sublist (min st.hardware_concurrency (keptTimes st records now).length)
        (List.insertionSort (· ≥ ·) (keptTimes st records now)))
  · simp only [List.map_map, Function.comp_def]
    simp
  · intro x hx y hy
    rcases List.mem_map.mp hx with ⟨c, hc, hfc⟩
    have hcross := (List.pairwise_append.mp
      (by
        rw [List.take_append_drop
          (min st.hardware_concurrency (keptTimes st records now).length)
          (List.insertionSort (· ≥ ·) (keptTimes st records now))]
        exact hsorted)).2.2
    have hge := hcross c hc y hy
    rw [← hfc]
    exact hge

/-- Differ entries for the c6 witness state. -/
def c6e1 : RetainedStats :=
  { LastSeen := 2000000000, PreviousStats := mkRec 1 0 0, Stats := mkRec 1 300 0 }

/-- Differ entries for the c6 witness state. -/
def c6e2 : RetainedStats :=
  { LastSeen := 2000000000, PreviousStats := mkRec 2 0 0, Stats := mkRec 2 500 0 }

/-- A non-first-pass state with two tracked threads on a 2-core machine. -/
def c6wState : FexState :=
  { initState 2 1000000000 with
      FirstLoop := false
      previous_sample_period := 1000000000
      sampled_stats := [(1, c6e1), (2, c6e2)] }

/-- Witness for c6_thread_loads on the two-thread state. -/
theorem c6_thread_loads_witness :
    (AccumulateJITStats c6wState initJITData [] 2000000000).1.max_thread_loads.length
      = min c6wState.hardware_concurrency (keptTimes c6wState [] 2000000000).length :=
  (c6_thread_loads c6wState initJITData [] 2000000000 (by decide)).1

/-- 33 raw records with thread ids 1..33 and zero counters. -/
def records33 : List ThreadStats := (List.range 33).map (fun i => mkRec (i + 1) 0 0)

/-- Counterexample to claim C6 as stated: with hardware_concurrency 33 and
33 sampled threads, the load list after the second pass has 33 entries,
exceeding min(hardware_concurrency, 32) = 32. -/
theorem c6_counterexample :
    ¬ ((AccumulateJITStats
          (AccumulateJITStats (initState 33 1000000000) initJITData records33 1000000000).1
          (AccumulateJITStats (initState 33 1000000000) initJITData records33 1000000000).2
          records33 2000000000).1.max_thread_loads.length
        ≤ min (initState 33 1000000000).hardware_concurrency 32) := by
  decide

/-- Claim C7 (corrected): threads_sampled is not the length of the raw
record list; it is the number of entries of the differ map after the raw
records are merged in, which also counts threads absent from this pass
that are still tracked (including entries evicted for staleness during
this very pass). -/
theorem c7_threads_sampled (st : FexState) (jd : JITData) (records : List ThreadStats)
    (now : Nat) :
    (AccumulateJITStats st jd records now).2.threads_sampled
      = (SampleStats st.sampled_stats now records).length :=
  accumulate_threads_eq st jd records now

/-- Counterexample to claim C7 as stated: a second pass whose raw list has
one record still reports threads_sampled = 2 because the thread from the
first pass is retained in the map. -/
theorem c7_counterexample :
    ¬ ((AccumulateJITStats
          (AccumulateJITStats (initState 4 1000000000) initJITData
            [mkRec 1 0 0, mkRec 2 0 0] 1000000000).1
          (AccumulateJITStats (initState 4 1000000000) initJITData
            [mkRec 1 0 0, mkRec 2 0 0] 1000000000).2
          [mkRec 1 0 0] 2000000000).2.threads_sampled
        = [mkRec 1 0 0].length) := by
  decide

theorem foldl_stepEntry_fex_load (now : Nat) (l : List (Nat × RetainedStats))
    (jd : JITData) (out : List (Nat × RetainedStats)) :
    (l.foldl (stepEntry now) (jd, out)).1.fex_load = jd.fex_load :=
  (foldl_stepEntry_misc now l jd out).2

theorem foldl_stepEntry_sample_period (now : Nat) (l : List (Nat × RetainedStats))
    (jd : JITData) (out : List (Nat × RetainedStats)) :
    (l.foldl (stepEntry now) (jd, out)).1.sample_period = jd.sample_period :=
  (foldl_stepEntry_misc now l jd out).1

/-- Claim C8 (confirmed): the first sampling pass leaves all derived
fields at zero — fex_load keeps its zero initial value, no sample period
is computed, the per-thread load list stays empty — and appends no entry
to the histogram. -/
theorem c8_first_pass (hc freq now : Nat) (records : List ThreadStats) :
    (AccumulateJITStats (initState hc freq) initJITData records now).2.fex_load = 0
    ∧ (AccumulateJITStats (initState hc freq) initJITData records now).2.sample_period = 0
    ∧ (AccumulateJITStats (initState hc freq) initJITData records now).1.max_thread_loads = []
    ∧ (AccumulateJITStats (initState hc freq) initJITData records now).1.fex_load_histogram
        = (initState hc freq).fex_load_histogram := by
  simp [AccumulateJITStats, initState, initJITData,
    foldl_stepEntry_fex_load, foldl_stepEntry_sample_period]

/-- Claim C9 (confirmed): when a pass occurs at a time `now` with
now - last_seen at or beyond the 10 s stale timeout for some tracked
thread (in particular one that has not appeared in the raw records, so its
last_seen was not refreshed), that pass removes the thread's entry from
the differ map. -/
theorem c9_stale_eviction (st : FexState) (jd : JITData) (records : List ThreadStats)
    (now t : Nat) (r : RetainedStats)
    (hnd : (st.sampled_stats.map Prod.fst).Nodup)
    (hmem : (t, r) ∈ SampleStats st.sampled_stats now records)
    (hstale : staleTimeoutNs ≤ now - r.LastSeen) :
    t ∉ ((AccumulateJITStats st jd records now).1.sampled_stats.map Prod.fst) := by
  rw [AccumulateJITStats_sampled_stats]
  intro hc
  rcases List.mem_map.mp hc with ⟨e, he, hfst⟩
  rcases List.mem_filterMap.mp he with ⟨a, ha, hk⟩
  simp only [keepEntry] at hk
  by_cases hs : staleTimeoutNs ≤ now - a.2.LastSeen
  · rw [if_pos hs] at hk
    exact Option.noConfusion hk
  · rw [if_neg hs] at hk
    have he2 : e = (a.1, resyncEntry a.2) := (Option.some_inj.mp hk).symm
    have hat : a.1 = t := by
      rw [he2] at hfst
      exact hfst
    have hnd2 := nodup_keys_SampleStats now records st.sampled_stats hnd
    have hmem2 : (t, a.2) ∈ SampleStats st.sampled_stats now records := by
      rw [← hat]
      exact ha
    have heq : a.2 = r := mem_eq_of_nodup_keys _ hnd2 t a.2 r hmem2 hmem
    rw [heq] at hs
    exact hs hstale

/-- The stale differ entry used by the c9 witness. -/
def c9ent : RetainedStats :=
  { LastSeen := 0, PreviousStats := ThreadStats.zero, Stats := ThreadStats.zero }

/-- A state with a single thread last seen at time 0. -/
def c9state : FexState :=
  { initState 4 1000000000 with sampled_stats := [(3, c9ent)] }

/-- Witness for c9_stale_eviction: the thread last seen at 0 is gone after
the pass at the stale-timeout instant. -/
theorem c9_stale_eviction_witness :
    3 ∉ ((AccumulateJITStats c9state initJITData [] staleTimeoutNs).1.sampled_stats.map
      Prod.fst) :=
  c9_stale_eviction c9state initJITData [] staleTimeoutNs 3 c9ent
    (by decide) (by decide) (by decide)

/-- Claim C10 (confirmed): a zero thread_stats_size header field leaves the
per-record copy size at the consumer's full 80-byte record size; only a
nonzero header value participates in the min with the consumer record
size; the copy size is never zero. -/
theorem c10_copy_size (headerSize : Nat) :
    threadStatsSizeToCopy headerSize
      = (if headerSize = 0 then sizeofThreadStats else min headerSize sizeofThreadStats)
    ∧ 0 < threadStatsSizeToCopy headerSize := by
  by_cases hz : headerSize = 0
  · simp [threadStatsSizeToCopy, sizeofThreadStats, hz]
  · constructor
    · simp [threadStatsSizeToCopy, hz]
    · simp only [threadStatsSizeToCopy, sizeofThreadStats, hz, if_true, ne_eq,
        not_false_iff, if_neg]
      omega
